import Mathlib

/-!
Shallow embedding of `src/vendor/tai/gen_leapsecs_dat.py`.

The script parses a leap-seconds table (`parse_leap_seconds`), converts each
NTP timestamp to a TAI64 value (`ntp_ts - NTP_TO_UNIX + TAI64_BASE`), and
writes a C header with a static initializer list.

Python strings are modelled as `List Char` (ASCII content; the file's lines
are given without their terminating newline, which `line.strip()` would
remove anyway).  Python's unbounded `int` is modelled as `Int`.  The
filesystem is modelled explicitly: the input file is `Option (List String)`
(`none` = missing file) and the output file is `Option String`.  Exceptions
(`FileNotFoundError`, `ValueError` from `int()`, `IndexError` from
`parts[1]`) are modelled with `Except`.
-/

/-- The six ASCII whitespace characters recognised by Python's
`str.strip()` / `str.split()` (space, tab, newline, carriage return,
vertical tab, form feed). -/
def isPySpace (c : Char) : Bool :=
  c == ' ' || c == '\t' || c == '\n' || c == '\r' ||
  c == Char.ofNat 11 || c == Char.ofNat 12

/-- Python `line.strip()`: drop leading and trailing whitespace. -/
def pyStrip (s : List Char) : List Char :=
  ((s.dropWhile isPySpace).reverse.dropWhile isPySpace).reverse

/-- Worker for `pySplit`: accumulates the current token (reversed). -/
def pySplitAux : List Char → List Char → List (List Char)
  | [], acc => if acc.isEmpty then [] else [acc.reverse]
  | c :: cs, acc =>
    if isPySpace c then
      if acc.isEmpty then pySplitAux cs [] else acc.reverse :: pySplitAux cs []
    else
      pySplitAux cs (c :: acc)

/-- Python `line.split()` with no argument: split on runs of whitespace,
producing no empty tokens. -/
def pySplit (s : List Char) : List (List Char) :=
  pySplitAux s []

/-- Value of an ASCII decimal digit, `none` for any other character. -/
def digitVal? (c : Char) : Option Nat :=
  if '0' ≤ c && c ≤ '9' then some (c.toNat - '0'.toNat) else none

/-- Digits after the first one: Python `int()` allows a single `_`
between two digits, but not leading, trailing, or doubled. -/
def pyDigitsRest : List Char → Nat → Option Nat
  | [], acc => some acc
  | '_' :: c :: cs, acc =>
    match digitVal? c with
    | some d => pyDigitsRest cs (acc * 10 + d)
    | none => none
  | ['_'], _ => none
  | c :: cs, acc =>
    match digitVal? c with
    | some d => pyDigitsRest cs (acc * 10 + d)
    | none => none

/-- A nonempty run of decimal digits (with Python's `_` grouping rule). -/
def pyDigits : List Char → Option Nat
  | [] => none
  | c :: cs =>
    match digitVal? c with
    | some d => pyDigitsRest cs d
    | none => none

/-- Python `int(token)` on an ASCII token: strips whitespace, then an
optional sign followed by a nonempty digit run.  `none` models the
`ValueError` that `int()` raises on anything else. -/
def pyInt (tok : List Char) : Option Int :=
  match pyStrip tok with
  | '+' :: rest => (pyDigits rest).map Int.ofNat
  | '-' :: rest => (pyDigits rest).map (fun n => -(Int.ofNat n : Int))
  | rest => (pyDigits rest).map Int.ofNat

/-- ASCII character of a decimal digit value. -/
def decDigitChar (n : Nat) : Char :=
  Char.ofNat ('0'.toNat + n)

/-- Worker for the decimal renderer: structural recursion on a fuel bound
so that the kernel can evaluate it (any fuel above the value works). -/
def decDigitsAux : Nat → Nat → List Char
  | 0, _ => []
  | fuel + 1, n =>
    if n < 10 then [decDigitChar n]
    else decDigitChar (n % 10) :: decDigitsAux fuel (n / 10)

/-- Decimal digits of `n`, least significant first. -/
def natToDecRev (n : Nat) : List Char :=
  decDigitsAux (n + 1) n

/-- Python `str(n)` for a natural number. -/
def natToDec (n : Nat) : List Char :=
  (natToDecRev n).reverse

/-- Python `str(i)` for an integer (a `-` sign for negatives). -/
def pyStrInt (i : Int) : List Char :=
  if i < 0 then '-' :: natToDec i.natAbs else natToDec i.toNat

/-- Lowercase hex digit character for a value below 16. -/
def hexDigitChar (n : Nat) : Char :=
  if n < 10 then Char.ofNat ('0'.toNat + n) else Char.ofNat ('a'.toNat + (n - 10))

/-- Worker for the hex renderer: structural recursion on a fuel bound. -/
def hexDigitsAux : Nat → Nat → List Char
  | 0, _ => []
  | fuel + 1, n =>
    if n < 16 then [hexDigitChar n]
    else hexDigitChar (n % 16) :: hexDigitsAux fuel (n / 16)

/-- Hex digits of `n`, least significant first (lowercase). -/
def natToHexRev (n : Nat) : List Char :=
  hexDigitsAux (n + 1) n

/-- Hex rendering of `n`, most significant first, no padding (Python
`format(n, "x")` for `n ≥ 0`). -/
def natToHex (n : Nat) : List Char :=
  (natToHexRev n).reverse

/-- Python `format(v, "016x")`: lowercase hex, sign-aware zero padding to a
minimum total width of 16 characters (a wider value keeps all its digits). -/
def pyHex016 (v : Int) : List Char :=
  if v < 0 then
    '-' :: (List.replicate (15 - (natToHex v.natAbs).length) '0' ++ natToHex v.natAbs)
  else
    List.replicate (16 - (natToHex v.toNat).length) '0' ++ natToHex v.toNat

/-- `NTP_TO_UNIX = 2208988800` from the script. -/
def NTP_TO_UNIX : Int := 2208988800

/-- `TAI64_BASE = 0x4000000000000000` from the script. -/
def TAI64_BASE : Int := 0x4000000000000000

/-- The encoder: `tai64 = ntp_ts - NTP_TO_UNIX + TAI64_BASE`. -/
def tai64_of (ntp : Int) : Int :=
  ntp - NTP_TO_UNIX + TAI64_BASE

/-- The exceptions the script can raise. -/
inductive PyError where
  | fileNotFound
  | valueError
  | indexError
deriving DecidableEq

/-- One iteration of the loop body of `parse_leap_seconds` on a single line:
strip; skip if empty or starting with `#`; otherwise split and convert
`parts[0]` and `parts[1]` with `int()`.  Python evaluates `int(parts[0])`
before `parts[1]`, so a lone non-numeric token raises `ValueError`, while a
lone numeric token raises `IndexError`. -/
def parseLine (line : List Char) : Except PyError (Option (Int × Int)) :=
  let s := pyStrip line
  if s.isEmpty || s.head? == some '#' then
    .ok none
  else
    match pySplit s with
    | [] => .error .indexError
    | [t0] =>
      match pyInt t0 with
      | none => .error .valueError
      | some _ => .error .indexError
    | t0 :: t1 :: _ =>
      match pyInt t0 with
      | none => .error .valueError
      | some a =>
        match pyInt t1 with
        | none => .error .valueError
        | some b => .ok (some (a, b))

/-- `parse_leap_seconds`: fold `parseLine` over the file's lines in order,
collecting the records; the first exception aborts the run. -/
def parse_leap_seconds : List String → Except PyError (List (Int × Int))
  | [] => .ok []
  | l :: ls =>
    match parseLine l.data with
    | .error e => .error e
    | .ok r =>
      match parse_leap_seconds ls with
      | .error e => .error e
      | .ok rest =>
        match r with
        | some p => .ok (p :: rest)
        | none => .ok rest

/-- Left brace character (ASCII 123). -/
def lbrace : Char := Char.ofNat 123

/-- Right brace character (ASCII 125). -/
def rbrace : Char := Char.ofNat 125

/-- One initializer entry, as written by the loop body:
`  { .x = 0x<hex16>ULL }` then a comma unless it is the last entry, then
`  /* TAI-UTC = <leap_count>s */` and a newline. -/
def emit_entry (isLast : Bool) (p : Int × Int) : List Char :=
  "  \x7b .x = 0x".data ++ pyHex016 (tai64_of p.1) ++ "ULL \x7d".data ++
  (if isLast then [] else [',']) ++
  "  /* TAI-UTC = ".data ++ pyStrInt p.2 ++ "s */\n".data

/-- The entry lines for the whole record list (the last gets no comma). -/
def emit_entries : List (Int × Int) → List (List Char)
  | [] => []
  | [p] => [emit_entry true p]
  | p :: q :: ps => emit_entry false p :: emit_entries (q :: ps)

/-- Everything the script writes before the entries: banner, include guard,
`LEAPSECS_MAX`, `LEAPSECS_INIT_COUNT <n>`, and the array opener. -/
def header_text (n : Nat) : List Char :=
  "/* Auto-generated from leap-seconds.list */\n".data ++
  "#ifndef TAI_LEAPSECS_DAT_H\n#define TAI_LEAPSECS_DAT_H\n\n".data ++
  "#define LEAPSECS_MAX 256\n".data ++
  "#define LEAPSECS_INIT_COUNT ".data ++ natToDec n ++ "\n\n".data ++
  "static struct tai leapsecs_table[LEAPSECS_MAX] = \x7b\n".data

/-- Everything the script writes after the entries. -/
def trailer_text : List Char :=
  "  /* Remaining entries initialized to zero */\n\x7d;\n\n#endif\n".data

/-- The complete output file content for a parsed record list. -/
def generate_output (records : List (Int × Int)) : List Char :=
  header_text records.length ++ (emit_entries records).flatten ++ trailer_text

/-- The two files the script touches: the input (`none` = does not exist,
otherwise its lines) and the output (its content, `none` = does not exist). -/
structure FileSystem where
  input : Option (List String)
  output : Option String
deriving DecidableEq

/-- The module body: read and parse the input file (a missing file raises
`FileNotFoundError`; parsing completes before the output file is opened),
then open the output file in mode `w` and write the generated header.  The
generation loop itself cannot raise, so the write is modelled atomically. -/
def run_generator (fs : FileSystem) : Except PyError Unit × FileSystem :=
  match fs.input with
  | none => (.error .fileNotFound, fs)
  | some lines =>
    match parse_leap_seconds lines with
    | .error e => (.error e, fs)
    | .ok records =>
      (.ok (), { fs with output := some (String.mk (generate_output records)) })

/-! ## Spec-side definitions

These follow the specification's wording, for comparison with the embedded
code: the per-line record extraction, the failure condition for a line, and
independent decoders for the hex / decimal renderings. -/

/-- The record a single line contributes: `none` for a line that strips to
empty or whose first (post-strip) character is `#`, or whose first two
tokens do not both convert; otherwise the pair of converted integers. -/
def lineRecord (line : List Char) : Option (Int × Int) :=
  let s := pyStrip line
  if s.isEmpty || s.head? == some '#' then none
  else
    match pySplit s with
    | t0 :: t1 :: _ =>
      match pyInt t0, pyInt t1 with
      | some a, some b => some (a, b)
      | _, _ => none
    | _ => none

/-- A line on which parsing raises: non-blank after stripping, first
non-whitespace character not `#`, and its first two whitespace-separated
tokens are not both valid integers (including the case of fewer than two
tokens). -/
def bad_line (line : List Char) : Bool :=
  let s := pyStrip line
  !(s.isEmpty || s.head? == some '#') &&
    (match pySplit s with
     | t0 :: t1 :: _ => !((pyInt t0).isSome && (pyInt t1).isSome)
     | _ => true)

/-- The sixteen lowercase hex digit characters. -/
def hexLowerChars : List Char := "0123456789abcdef".data

/-- Membership in the lowercase hex digit alphabet. -/
def isHexLower (c : Char) : Bool := hexLowerChars.contains c

/-- The ten decimal digit characters. -/
def decChars : List Char := "0123456789".data

/-- Membership in the decimal digit alphabet. -/
def isDecDigit (c : Char) : Bool := decChars.contains c

/-- Value of a lowercase hex digit character. -/
def hexCharVal (c : Char) : Nat :=
  if c ≤ '9' then c.toNat - '0'.toNat else c.toNat - 'a'.toNat + 10

/-- Interpret a most-significant-first hex digit string. -/
def fromHex (ds : List Char) : Nat :=
  ds.foldl (fun a c => 16 * a + hexCharVal c) 0

/-- Value of a decimal digit character. -/
def decCharVal (c : Char) : Nat :=
  c.toNat - '0'.toNat

/-- Interpret a most-significant-first decimal digit string. -/
def fromDec (ds : List Char) : Nat :=
  ds.foldl (fun a c => 10 * a + decCharVal c) 0

/-- Interpret a decimal rendering with an optional leading minus sign. -/
def decodeDec : List Char → Int
  | '-' :: ds => -(fromDec ds : Int)
  | ds => (fromDec ds : Int)

/-! ## Helper lemmas on the digit renderers -/

theorem decDigitsAux_congr : ∀ n fuel fuel', n < fuel → n < fuel' →
    decDigitsAux fuel n = decDigitsAux fuel' n := by
  intro n
  induction n using Nat.strong_induction_on with
  | _ n ih =>
    intro fuel fuel' h h'
    rcases fuel with _ | f
    · omega
    rcases fuel' with _ | f'
    · omega
    simp only [decDigitsAux]
    by_cases h10 : n < 10
    · rw [if_pos h10, if_pos h10]
    · rw [if_neg h10, if_neg h10]
      have hd : n / 10 < n := Nat.div_lt_self (by omega) (by omega)
      rw [ih (n / 10) hd f f' (by omega) (by omega)]

theorem natToDecRev_eq (n : Nat) :
    natToDecRev n = if n < 10 then [decDigitChar n]
      else decDigitChar (n % 10) :: natToDecRev (n / 10) := by
  show decDigitsAux (n + 1) n = _
  simp only [decDigitsAux]
  by_cases h : n < 10
  · rw [if_pos h, if_pos h]
  · rw [if_neg h, if_neg h]
    show _ :: decDigitsAux n (n / 10) = _ :: decDigitsAux (n / 10 + 1) (n / 10)
    rw [decDigitsAux_congr (n / 10) n (n / 10 + 1)
      (Nat.div_lt_self (by omega) (by omega)) (by omega)]

theorem hexDigitsAux_congr : ∀ n fuel fuel', n < fuel → n < fuel' →
    hexDigitsAux fuel n = hexDigitsAux fuel' n := by
  intro n
  induction n using Nat.strong_induction_on with
  | _ n ih =>
    intro fuel fuel' h h'
    rcases fuel with _ | f
    · omega
    rcases fuel' with _ | f'
    · omega
    simp only [hexDigitsAux]
    by_cases h16 : n < 16
    · rw [if_pos h16, if_pos h16]
    · rw [if_neg h16, if_neg h16]
      have hd : n / 16 < n := Nat.div_lt_self (by omega) (by omega)
      rw [ih (n / 16) hd f f' (by omega) (by omega)]

theorem natToHexRev_eq (n : Nat) :
    natToHexRev n = if n < 16 then [hexDigitChar n]
      else hexDigitChar (n % 16) :: natToHexRev (n / 16) := by
  show hexDigitsAux (n + 1) n = _
  simp only [hexDigitsAux]
  by_cases h : n < 16
  · rw [if_pos h, if_pos h]
  · rw [if_neg h, if_neg h]
    show _ :: hexDigitsAux n (n / 16) = _ :: hexDigitsAux (n / 16 + 1) (n / 16)
    rw [hexDigitsAux_congr (n / 16) n (n / 16 + 1)
      (Nat.div_lt_self (by omega) (by omega)) (by omega)]

theorem isHexLower_hexDigitChar (d : Nat) (h : d < 16) :
    isHexLower (hexDigitChar d) = true := by
  interval_cases d <;> decide

theorem hexCharVal_hexDigitChar (d : Nat) (h : d < 16) :
    hexCharVal (hexDigitChar d) = d := by
  interval_cases d <;> decide

theorem isDecDigit_decDigitChar (d : Nat) (h : d < 10) :
    isDecDigit (decDigitChar d) = true := by
  interval_cases d <;> decide

theorem decCharVal_decDigitChar (d : Nat) (h : d < 10) :
    decCharVal (decDigitChar d) = d := by
  interval_cases d <;> decide

theorem mem_natToHexRev : ∀ n, ∀ c ∈ natToHexRev n, isHexLower c = true := by
  intro n
  induction n using Nat.strong_induction_on with
  | _ n ih =>
    intro c hc
    rw [natToHexRev_eq] at hc
    split at hc
    · rw [List.mem_singleton] at hc
      exact hc ▸ isHexLower_hexDigitChar n (by omega)
    · rcases List.mem_cons.mp hc with h | h
      · exact h ▸ isHexLower_hexDigitChar _ (Nat.mod_lt _ (by omega))
      · exact ih (n / 16) (Nat.div_lt_self (by omega) (by omega)) c h

theorem mem_natToDecRev : ∀ n, ∀ c ∈ natToDecRev n, isDecDigit c = true := by
  intro n
  induction n using Nat.strong_induction_on with
  | _ n ih =>
    intro c hc
    rw [natToDecRev_eq] at hc
    split at hc
    · rw [List.mem_singleton] at hc
      exact hc ▸ isDecDigit_decDigitChar n (by omega)
    · rcases List.mem_cons.mp hc with h | h
      · exact h ▸ isDecDigit_decDigitChar _ (Nat.mod_lt _ (by omega))
      · exact ih (n / 10) (Nat.div_lt_self (by omega) (by omega)) c h

theorem fromHex_append_singleton (xs : List Char) (c : Char) :
    fromHex (xs ++ [c]) = 16 * fromHex xs + hexCharVal c := by
  simp [fromHex, List.foldl_append]

theorem fromDec_append_singleton (xs : List Char) (c : Char) :
    fromDec (xs ++ [c]) = 10 * fromDec xs + decCharVal c := by
  simp [fromDec, List.foldl_append]

theorem fromHex_natToHex : ∀ n, fromHex (natToHex n) = n := by
  intro n
  induction n using Nat.strong_induction_on with
  | _ n ih =>
    rw [natToHex, natToHexRev_eq]
    split
    · have : fromHex [hexDigitChar n] = hexCharVal (hexDigitChar n) := by
        simp [fromHex]
      rw [List.reverse_singleton, this, hexCharVal_hexDigitChar n (by omega)]
    · rw [List.reverse_cons, fromHex_append_singleton, ← natToHex,
        ih (n / 16) (Nat.div_lt_self (by omega) (by omega)),
        hexCharVal_hexDigitChar _ (Nat.mod_lt _ (by omega))]
      omega

theorem fromDec_natToDec : ∀ n, fromDec (natToDec n) = n := by
  intro n
  induction n using Nat.strong_induction_on with
  | _ n ih =>
    rw [natToDec, natToDecRev_eq]
    split
    · have : fromDec [decDigitChar n] = decCharVal (decDigitChar n) := by
        simp [fromDec]
      rw [List.reverse_singleton, this, decCharVal_decDigitChar n (by omega)]
    · rw [List.reverse_cons, fromDec_append_singleton, ← natToDec,
        ih (n / 10) (Nat.div_lt_self (by omega) (by omega)),
        decCharVal_decDigitChar _ (Nat.mod_lt _ (by omega))]
      omega

theorem length_natToHexRev_le : ∀ k n, 1 ≤ k → n < 16 ^ k →
    (natToHexRev n).length ≤ k := by
  intro k
  induction k with
  | zero => omega
  | succ k ihk =>
    intro n _ h
    rw [natToHexRev_eq]
    split
    · simp
    · have hk : 1 ≤ k := by
        rcases Nat.eq_zero_or_pos k with h0 | h0
        · subst h0; simp at h; omega
        · exact h0
      have hdiv : n / 16 < 16 ^ k := by
        apply Nat.div_lt_of_lt_mul
        rw [pow_succ] at h
        omega
      have := ihk (n / 16) hk hdiv
      simp only [List.length_cons]
      omega

theorem foldlHex_replicate_zero : ∀ k,
    List.foldl (fun a c => 16 * a + hexCharVal c) 0 (List.replicate k '0') = 0 := by
  intro k
  induction k with
  | zero => rfl
  | succ k ih =>
    rw [List.replicate_succ, List.foldl_cons]
    have : (16 * 0 + hexCharVal '0') = 0 := by decide
    rw [this, ih]

theorem fromHex_replicate_zero_append (k : Nat) (ds : List Char) :
    fromHex (List.replicate k '0' ++ ds) = fromHex ds := by
  rw [fromHex, List.foldl_append, foldlHex_replicate_zero, fromHex]

/-- For a value in `[0, 2^64)`, `format(v, "016x")` yields exactly 16
lowercase hex digits that decode back to the value. -/
theorem pyHex016_spec (v : Int) (h0 : 0 ≤ v) (h1 : v < 2 ^ 64) :
    (pyHex016 v).length = 16 ∧
    (∀ c ∈ pyHex016 v, isHexLower c = true) ∧
    fromHex (pyHex016 v) = v.toNat := by
  have hne : ¬ v < 0 := by omega
  have hlt : v.toNat < 16 ^ 16 := by
    have hv := Int.toNat_of_nonneg h0
    norm_num at h1 ⊢
    omega
  have hlen : (natToHex v.toNat).length ≤ 16 := by
    rw [natToHex, List.length_reverse]
    exact length_natToHexRev_le 16 v.toNat (by omega) hlt
  rw [pyHex016, if_neg hne]
  refine ⟨?_, ?_, ?_⟩
  · rw [List.length_append, List.length_replicate]
    omega
  · intro c hc
    rcases List.mem_append.mp hc with h | h
    · rw [List.eq_of_mem_replicate h]
      decide
    · rw [natToHex] at h
      exact mem_natToHexRev v.toNat c (List.mem_reverse.mp h)
  · rw [fromHex_replicate_zero_append, fromHex_natToHex]

/-- `str(i)` decodes back to `i`. -/
theorem decodeDec_pyStrInt (i : Int) : decodeDec (pyStrInt i) = i := by
  by_cases h : i < 0
  · rw [pyStrInt, if_pos h]
    show decodeDec ('-' :: natToDec i.natAbs) = i
    rw [decodeDec, fromDec_natToDec]
    omega
  · rw [pyStrInt, if_neg h]
    have hd : ∀ c ∈ natToDec i.toNat, isDecDigit c = true := by
      intro c hc
      rw [natToDec] at hc
      exact mem_natToDecRev i.toNat c (List.mem_reverse.mp hc)
    have hne : natToDec i.toNat ≠ [] := by
      rw [natToDec, ← List.length_pos_iff_ne_nil, List.length_reverse]
      rw [natToDecRev_eq]
      split <;> simp
    rcases hhead : natToDec i.toNat with _ | ⟨c, cs⟩
    · exact absurd hhead hne
    · have hc : isDecDigit c = true := by
        have := hd c
        rw [hhead] at this
        exact this (List.mem_cons_self c cs)
      have hcne : c ≠ '-' := by
        intro hEq
        rw [hEq] at hc
        exact absurd hc (by decide)
      rw [← hhead]
      have : decodeDec (natToDec i.toNat) = (fromDec (natToDec i.toNat) : Int) := by
        rw [hhead, decodeDec.eq_def]
        split
        · rename_i heq
          rw [List.cons.injEq] at heq
          exact absurd heq.1 hcne
        · rfl
      rw [this, fromDec_natToDec]
      omega

/-! ## Character-count lemmas for the emitted text -/

theorem count_zero_of_forbidden (l : List Char) (a : Char)
    (h : ∀ c ∈ l, c ≠ a) : l.count a = 0 :=
  List.count_eq_zero.mpr (fun hmem => (h a hmem) rfl)

theorem mem_pyHex016 (v : Int) (c : Char) (h : c ∈ pyHex016 v) :
    c = '-' ∨ isHexLower c = true := by
  rw [pyHex016] at h
  split at h
  · rcases List.mem_cons.mp h with h | h
    · exact Or.inl h
    · rcases List.mem_append.mp h with h | h
      · right; rw [List.eq_of_mem_replicate h]; decide
      · right; rw [natToHex] at h
        exact mem_natToHexRev _ c (List.mem_reverse.mp h)
  · rcases List.mem_append.mp h with h | h
    · right; rw [List.eq_of_mem_replicate h]; decide
    · right; rw [natToHex] at h
      exact mem_natToHexRev _ c (List.mem_reverse.mp h)

theorem mem_pyStrInt (i : Int) (c : Char) (h : c ∈ pyStrInt i) :
    c = '-' ∨ isDecDigit c = true := by
  rw [pyStrInt] at h
  split at h
  · rcases List.mem_cons.mp h with h | h
    · exact Or.inl h
    · right; rw [natToDec] at h
      exact mem_natToDecRev _ c (List.mem_reverse.mp h)
  · right; rw [natToDec] at h
    exact mem_natToDecRev _ c (List.mem_reverse.mp h)

theorem count_pyHex016_eq_zero (v : Int) (a : Char)
    (hh : isHexLower a = false) (hm : a ≠ '-') : (pyHex016 v).count a = 0 := by
  apply count_zero_of_forbidden
  intro c hc hEq
  rcases mem_pyHex016 v c hc with h | h
  · exact hm (hEq ▸ h)
  · rw [← hEq] at hh
    rw [h] at hh
    exact absurd hh (by decide)

theorem count_pyStrInt_eq_zero (i : Int) (a : Char)
    (hd : isDecDigit a = false) (hm : a ≠ '-') : (pyStrInt i).count a = 0 := by
  apply count_zero_of_forbidden
  intro c hc hEq
  rcases mem_pyStrInt i c hc with h | h
  · exact hm (hEq ▸ h)
  · rw [← hEq] at hd
    rw [h] at hd
    exact absurd hd (by decide)

theorem count_natToDec_eq_zero (n : Nat) (a : Char)
    (hd : isDecDigit a = false) : (natToDec n).count a = 0 := by
  apply count_zero_of_forbidden
  intro c hc hEq
  rw [natToDec] at hc
  have := mem_natToDecRev n c (List.mem_reverse.mp hc)
  rw [← hEq] at hd
  rw [this] at hd
  exact absurd hd (by decide)

theorem count_emit_entry_lbrace (isLast : Bool) (p : Int × Int) :
    (emit_entry isLast p).count lbrace = 1 := by
  rw [emit_entry]
  simp only [List.count_append]
  rw [count_pyHex016_eq_zero _ _ (by decide) (by decide),
      count_pyStrInt_eq_zero _ _ (by decide) (by decide)]
  cases isLast <;> decide

theorem count_emit_entry_comma (isLast : Bool) (p : Int × Int) :
    (emit_entry isLast p).count ',' = if isLast then 0 else 1 := by
  rw [emit_entry]
  simp only [List.count_append]
  rw [count_pyHex016_eq_zero _ _ (by decide) (by decide),
      count_pyStrInt_eq_zero _ _ (by decide) (by decide)]
  cases isLast <;> decide

theorem count_emit_entries_lbrace : ∀ rs : List (Int × Int),
    (emit_entries rs).flatten.count lbrace = rs.length := by
  intro rs
  induction rs with
  | nil => rfl
  | cons p rs ih =>
    cases rs with
    | nil =>
      show (emit_entry true p ++ []).count lbrace = 1
      rw [List.append_nil, count_emit_entry_lbrace]
    | cons q ps =>
      show (emit_entry false p ++ (emit_entries (q :: ps)).flatten).count lbrace = _
      rw [List.count_append, count_emit_entry_lbrace, ih]
      simp only [List.length_cons]
      omega

theorem count_emit_entries_comma : ∀ rs : List (Int × Int),
    (emit_entries rs).flatten.count ',' = rs.length - 1 := by
  intro rs
  induction rs with
  | nil => rfl
  | cons p rs ih =>
    cases rs with
    | nil =>
      show (emit_entry true p ++ []).count ',' = 0
      rw [List.append_nil, count_emit_entry_comma]
      rfl
    | cons q ps =>
      show (emit_entry false p ++ (emit_entries (q :: ps)).flatten).count ',' = _
      rw [List.count_append, count_emit_entry_comma, ih]
      simp only [List.length_cons]
      norm_num
      omega

theorem count_header_lbrace (n : Nat) : (header_text n).count lbrace = 1 := by
  rw [header_text]
  simp only [List.count_append]
  rw [count_natToDec_eq_zero _ _ (by decide)]
  decide

theorem count_header_comma (n : Nat) : (header_text n).count ',' = 0 := by
  rw [header_text]
  simp only [List.count_append]
  rw [count_natToDec_eq_zero _ _ (by decide)]
  decide

theorem count_generate_lbrace (rs : List (Int × Int)) :
    (generate_output rs).count lbrace = rs.length + 1 := by
  rw [generate_output]
  simp only [List.count_append]
  rw [count_header_lbrace, count_emit_entries_lbrace]
  have : trailer_text.count lbrace = 0 := by decide
  omega

theorem count_generate_comma (rs : List (Int × Int)) :
    (generate_output rs).count ',' = rs.length - 1 := by
  rw [generate_output]
  simp only [List.count_append]
  rw [count_header_comma, count_emit_entries_comma]
  have : trailer_text.count ',' = 0 := by decide
  omega

/-! ## Parser lemmas -/

/-- Per-line trichotomy: a line either parses cleanly to its record, or
raises a conversion (`ValueError`) or subscript (`IndexError`) exception,
exactly according to `bad_line`. -/
theorem parseLine_trichotomy (l : List Char) :
    (bad_line l = false ∧ parseLine l = .ok (lineRecord l)) ∨
    (bad_line l = true ∧
      (parseLine l = .error .valueError ∨ parseLine l = .error .indexError)) := by
  unfold parseLine bad_line lineRecord
  by_cases h : ((pyStrip l).isEmpty || (pyStrip l).head? == some '#') = true
  · left
    simp [h]
  · rw [Bool.not_eq_true] at h
    rcases hsp : pySplit (pyStrip l) with _ | ⟨t0, _ | ⟨t1, ts⟩⟩
    · right
      simp [h, hsp]
    · rcases h0 : pyInt t0 with _ | a
      · right
        simp [h, hsp, h0]
      · right
        simp [h, hsp, h0]
    · rcases h0 : pyInt t0 with _ | a
      · right
        simp [h, hsp, h0]
      · rcases h1 : pyInt t1 with _ | b
        · right
          simp [h, hsp, h0, h1]
        · left
          simp [h, hsp, h0, h1]

/-- If no line is bad, parsing succeeds and returns exactly the per-line
records, in file order. -/
theorem parse_ok_of_good : ∀ lines : List String,
    (∀ l ∈ lines, bad_line l.data = false) →
    parse_leap_seconds lines = .ok (lines.filterMap (fun l => lineRecord l.data)) := by
  intro lines
  induction lines with
  | nil => intro _; rfl
  | cons l ls ih =>
    intro hall
    have hl : bad_line l.data = false := hall l (List.mem_cons_self l ls)
    rcases parseLine_trichotomy l.data with ⟨_, hok⟩ | ⟨hbad, _⟩
    · rw [parse_leap_seconds, hok, ih (fun x hx => hall x (List.mem_cons_of_mem l hx))]
      rw [List.filterMap_cons]
      rcases hrec : lineRecord l.data with _ | p <;> simp [hrec]
    · rw [hl] at hbad
      exact absurd hbad (by decide)

/-- If some line is bad, parsing raises a `ValueError` or an `IndexError`. -/
theorem parse_err_of_bad : ∀ lines : List String,
    (∃ l ∈ lines, bad_line l.data = true) →
    ∃ e, parse_leap_seconds lines = .error e ∧
      (e = PyError.valueError ∨ e = PyError.indexError) := by
  intro lines
  induction lines with
  | nil => rintro ⟨l, hl, _⟩; exact absurd hl (List.not_mem_nil l)
  | cons l ls ih =>
    rintro ⟨x, hx, hbad⟩
    rcases parseLine_trichotomy l.data with ⟨hgood, hok⟩ | ⟨_, herr⟩
    · have hxls : x ∈ ls := by
        rcases List.mem_cons.mp hx with rfl | h
        · rw [hgood] at hbad
          exact absurd hbad (by decide)
        · exact h
      rcases ih ⟨x, hxls, hbad⟩ with ⟨e, he, hkind⟩
      refine ⟨e, ?_, hkind⟩
      rw [parse_leap_seconds, hok, he]
    · rcases herr with he | he
      · exact ⟨.valueError, by rw [parse_leap_seconds, he], Or.inl rfl⟩
      · exact ⟨.indexError, by rw [parse_leap_seconds, he], Or.inr rfl⟩

/-- Successful parses are exactly the good inputs, with the filterMap
characterization of the records. -/
theorem parse_ok_iff (lines : List String) (records : List (Int × Int)) :
    parse_leap_seconds lines = .ok records ↔
    ((∀ l ∈ lines, bad_line l.data = false) ∧
      records = lines.filterMap (fun l => lineRecord l.data)) := by
  constructor
  · intro hok
    by_cases hall : ∀ l ∈ lines, bad_line l.data = false
    · refine ⟨hall, ?_⟩
      rw [parse_ok_of_good lines hall] at hok
      exact (Except.ok.injEq _ _ ▸ hok).symm
    · push_neg at hall
      rcases hall with ⟨x, hx, hb⟩
      rw [ne_eq, Bool.not_eq_false] at hb
      rcases parse_err_of_bad lines ⟨x, hx, hb⟩ with ⟨e, he, _⟩
      rw [he] at hok
      exact absurd hok (by simp)
  · rintro ⟨hall, rfl⟩
    exact parse_ok_of_good lines hall

/-! ## Claim theorems -/

/-- C1 (counterexample): the record parsed from the line
`"18446744073709551616 0"` (a valid input line, since Python integers are
unbounded) has TAI64 value `23058430089927950720`, which is at least
`2 ^ 64`; the emitted hex literal therefore has 17 digits, not 16 as the
claim requires for every parsed record. -/
theorem C1_cx_17_digits :
    parse_leap_seconds ["18446744073709551616 0"] =
      .ok [(18446744073709551616, 0)] ∧
    emit_entry true (18446744073709551616, 0) =
      "  \x7b .x = 0x13fffffff7c558180ULL \x7d  /* TAI-UTC = 0s */\n".data ∧
    (pyHex016 (tai64_of 18446744073709551616)).length = 17 := by
  exact ⟨rfl, rfl, rfl⟩

/-- C1 (amended): for every parsed record whose TAI64 value
`ntp_timestamp - 2208988800 + 0x4000000000000000` lies in `[0, 2 ^ 64)`,
the emitted initializer's hex literal is exactly 16 lowercase hex digits,
zero padded, decoding back to that value, with the `ULL` suffix, a comma
unless the entry is last, and a comment rendering the leap count in
decimal. -/
theorem C1_emit_format (isLast : Bool) (p : Int × Int)
    (h0 : 0 ≤ tai64_of p.1) (h1 : tai64_of p.1 < 2 ^ 64) :
    ∃ ds : List Char,
      ds.length = 16 ∧
      (∀ c ∈ ds, isHexLower c = true) ∧
      (fromHex ds : Int) = tai64_of p.1 ∧
      decodeDec (pyStrInt p.2) = p.2 ∧
      emit_entry isLast p =
        "  \x7b .x = 0x".data ++ ds ++ "ULL \x7d".data ++
        (if isLast then [] else [',']) ++
        "  /* TAI-UTC = ".data ++ pyStrInt p.2 ++ "s */\n".data := by
  refine ⟨pyHex016 (tai64_of p.1), (pyHex016_spec _ h0 h1).1,
    (pyHex016_spec _ h0 h1).2.1, ?_, decodeDec_pyStrInt p.2, rfl⟩
  rw [(pyHex016_spec _ h0 h1).2.2, Int.toNat_of_nonneg h0]

/-- C1 (witness): the amended claim applied to the record
`(2272060800, 10)`. -/
theorem C1_emit_format_witness :
    0 ≤ tai64_of ((2272060800 : Int), (10 : Int)).1 ∧
    tai64_of ((2272060800 : Int), (10 : Int)).1 < 2 ^ 64 ∧
    (∃ ds : List Char,
      ds.length = 16 ∧
      (∀ c ∈ ds, isHexLower c = true) ∧
      (fromHex ds : Int) = tai64_of ((2272060800 : Int), (10 : Int)).1 ∧
      decodeDec (pyStrInt ((2272060800 : Int), (10 : Int)).2) =
        ((2272060800 : Int), (10 : Int)).2 ∧
      emit_entry true ((2272060800 : Int), (10 : Int)) =
        "  \x7b .x = 0x".data ++ ds ++ "ULL \x7d".data ++
        (if true then [] else [',']) ++
        "  /* TAI-UTC = ".data ++ pyStrInt ((2272060800 : Int), (10 : Int)).2 ++
        "s */\n".data) :=
  ⟨by decide, by decide,
    C1_emit_format true ((2272060800 : Int), (10 : Int)) (by decide) (by decide)⟩

/-- C2 (counterexample): on the input line `"2272060800  10  # 1 Jan 1972"`
the parser does produce the record `(2272060800, 10)`, but the computed
value `2272060800 - 2208988800 + 0x4000000000000000` is
`0x4000000003C26700`, not `0x4000000000F04A00` as the claim states, and the
emitted line differs accordingly from the claimed one. -/
theorem C2_cx_wrong_hex :
    parse_leap_seconds ["2272060800  10  # 1 Jan 1972"] =
      .ok [(2272060800, 10)] ∧
    tai64_of 2272060800 ≠ 0x4000000000F04A00 ∧
    emit_entry true (2272060800, 10) ≠
      "  \x7b .x = 0x4000000000f04a00ULL \x7d  /* TAI-UTC = 10s */\n".data := by
  exact ⟨rfl, by decide, by decide⟩

/-- C2 (amended): scenario 1 with the arithmetic corrected — the input line
`"2272060800  10  # 1 Jan 1972"` parses to the record `(2272060800, 10)`,
whose value is `2272060800 - 2208988800 + 0x4000000000000000 =
0x4000000003C26700`, emitted as the sole entry
`.x = 0x4000000003c26700ULL` (inside braces) with comment `TAI-UTC = 10s`
and no trailing comma. -/
theorem C2_scenario1 :
    parse_leap_seconds ["2272060800  10  # 1 Jan 1972"] =
      .ok [(2272060800, 10)] ∧
    tai64_of 2272060800 = 0x4000000003C26700 ∧
    emit_entry true (2272060800, 10) =
      "  \x7b .x = 0x4000000003c26700ULL \x7d  /* TAI-UTC = 10s */\n".data := by
  exact ⟨rfl, by decide, rfl⟩

/-- C3: for an input parsing to `N` records with `N ≤ 256`, the output
contains the line `#define LEAPSECS_INIT_COUNT N`, the emitted entry list
has exactly `N` initializers, the whole output contains exactly `N + 1`
opening braces (the `N` initializers plus the array opener), and exactly
`N - 1` commas — so the `N` initializers are comma-separated with no comma
after the last one. -/
theorem C3_count_macro_and_entries (lines : List String)
    (records : List (Int × Int)) (n : Nat)
    (hp : parse_leap_seconds lines = .ok records)
    (hn : records.length = n) (hle : n ≤ 256) :
    (∃ pre post, generate_output records =
      pre ++ ("#define LEAPSECS_INIT_COUNT ".data ++ natToDec n ++ "\n".data)
        ++ post) ∧
    (emit_entries records).length = n ∧
    (generate_output records).count lbrace = n + 1 ∧
    (generate_output records).count ',' = n - 1 := by
  subst hn
  refine ⟨?_, ?_, count_generate_lbrace records, count_generate_comma records⟩
  · refine ⟨"/* Auto-generated from leap-seconds.list */\n".data ++
      "#ifndef TAI_LEAPSECS_DAT_H\n#define TAI_LEAPSECS_DAT_H\n\n".data ++
      "#define LEAPSECS_MAX 256\n".data,
      "\n".data ++
      "static struct tai leapsecs_table[LEAPSECS_MAX] = \x7b\n".data ++
      (emit_entries records).flatten ++ trailer_text, ?_⟩
    rw [generate_output, header_text]
    have hsplitnn : ("\n\n".data : List Char) = "\n".data ++ "\n".data := rfl
    rw [hsplitnn]
    simp only [List.append_assoc]
  · clear hp hle
    induction records with
    | nil => rfl
    | cons p rs ih =>
      cases rs with
      | nil => rfl
      | cons q ps =>
        show (emit_entry false p :: emit_entries (q :: ps)).length = _
        rw [List.length_cons, ih]
        rfl

/-- C3 (witness): the claim applied to a two-record input. -/
theorem C3_witness :
    (∃ pre post, generate_output [((2272060800 : Int), (10 : Int)),
        ((2287785600 : Int), (11 : Int))] =
      pre ++ ("#define LEAPSECS_INIT_COUNT ".data ++ natToDec 2 ++ "\n".data)
        ++ post) ∧
    (emit_entries [((2272060800 : Int), (10 : Int)),
        ((2287785600 : Int), (11 : Int))]).length = 2 ∧
    (generate_output [((2272060800 : Int), (10 : Int)),
        ((2287785600 : Int), (11 : Int))]).count lbrace = 2 + 1 ∧
    (generate_output [((2272060800 : Int), (10 : Int)),
        ((2287785600 : Int), (11 : Int))]).count ',' = 2 - 1 :=
  C3_count_macro_and_entries ["2272060800  10", "2287785600  11  # 1 Jul 1972"]
    [((2272060800 : Int), (10 : Int)), ((2287785600 : Int), (11 : Int))] 2
    rfl rfl (by decide)

/-- C4 (counterexample): the input line made of a tab, `#`, a space and `c`
is not the empty line, is not blank even after stripping, and does not begin
with `#`, yet it contributes zero records (the code strips the line before
testing for `#`, so the whole run succeeds with no records). -/
theorem C4_cx_indented_comment :
    ("\t# c" : String) ≠ "" ∧
    "\t# c".data.head? ≠ some '#' ∧
    pyStrip "\t# c".data ≠ [] ∧
    parse_leap_seconds ["\t# c"] = .ok [] := by
  exact ⟨by decide, by decide, by decide, rfl⟩

/-- C4 (amended): blank lines (whitespace-only, i.e. stripping to empty)
and lines whose first character after stripping is `#` contribute zero
records; every other line contributes exactly the record formed from its
first two whitespace-separated tokens interpreted as integers, with any
extra tokens ignored, and the records appear in file order — i.e. a
successful parse returns exactly `lines.filterMap lineRecord`. -/
theorem C4_records_filterMap (lines : List String) (records : List (Int × Int))
    (hp : parse_leap_seconds lines = .ok records) :
    records = lines.filterMap (fun l => lineRecord l.data) ∧
    (∀ l : List Char, pyStrip l = [] ∨ (pyStrip l).head? = some '#' →
      lineRecord l = none) ∧
    (∀ l : List Char, ∀ t0 t1 rest,
      pySplit (pyStrip l) = t0 :: t1 :: rest →
      (pyStrip l).head? ≠ some '#' →
      lineRecord l =
        (pyInt t0).bind (fun a => (pyInt t1).map (fun b => (a, b)))) := by
  refine ⟨((parse_ok_iff lines records).mp hp).2, ?_, ?_⟩
  · intro l h
    rw [lineRecord]
    rcases h with h | h
    · rw [if_pos]
      simp [h]
    · rw [if_pos]
      simp [h]
  · intro l t0 t1 rest hsp hhash
    have hne : ¬ (pyStrip l).isEmpty = true := by
      intro hemp
      rw [List.isEmpty_iff] at hemp
      rw [hemp] at hsp
      exact List.noConfusion (show ([] : List (List Char)) = t0 :: t1 :: rest from hsp)
    rw [lineRecord, if_neg, hsp]
    · rcases h0 : pyInt t0 with _ | a <;> rcases h1 : pyInt t1 with _ | b <;>
        simp [h0, h1]
    · intro hcond
      rcases Bool.or_eq_true_iff.mp hcond with h | h
      · exact hne h
      · rw [beq_iff_eq] at h
        exact hhash h

/-- C4 (witness): the amended claim applied to a three-line input with one
data line, one comment line and one blank line. -/
theorem C4_records_filterMap_witness :
    [((2272060800 : Int), (10 : Int))] =
      (["2272060800 10 extra", "# c", ""] : List String).filterMap
        (fun l => lineRecord l.data) :=
  (C4_records_filterMap ["2272060800 10 extra", "# c", ""]
    [((2272060800 : Int), (10 : Int))] rfl).1

/-- C5: determinism — the run's outcome is a function of the input file's
content alone: two filesystems holding the same input lines give the same
result, and on success the same output bytes (namely the generated header
for the parsed records), regardless of what either output file previously
contained (the script opens the output in mode `w` and overwrites it). -/
theorem C5_deterministic (lines : List String) (fs1 fs2 : FileSystem)
    (h1 : fs1.input = some lines) (h2 : fs2.input = some lines) :
    (run_generator fs1).1 = (run_generator fs2).1 ∧
    ((run_generator fs1).1 = .ok () →
      (run_generator fs1).2.output = (run_generator fs2).2.output ∧
      ∃ records, parse_leap_seconds lines = .ok records ∧
        (run_generator fs1).2.output =
          some (String.mk (generate_output records))) := by
  rcases hp : parse_leap_seconds lines with e | records
  · have r1 : (run_generator fs1).1 = .error e := by
      simp only [run_generator, h1, hp]
    have r2 : (run_generator fs2).1 = .error e := by
      simp only [run_generator, h2, hp]
    refine ⟨by rw [r1, r2], ?_⟩
    intro h
    rw [r1] at h
    exact Except.noConfusion h
  · have r1 : run_generator fs1 =
        (.ok (), { fs1 with output := some (String.mk (generate_output records)) }) := by
      simp only [run_generator, h1, hp]
    have r2 : run_generator fs2 =
        (.ok (), { fs2 with output := some (String.mk (generate_output records)) }) := by
      simp only [run_generator, h2, hp]
    exact ⟨by rw [r1, r2], fun _ => ⟨by rw [r1, r2], records, rfl, by rw [r1]⟩⟩

/-- C5 (witness): same input content, different prior output content. -/
theorem C5_deterministic_witness :
    (run_generator ⟨some ["2272060800  10"], none⟩).1 =
      (run_generator ⟨some ["2272060800  10"], some "stale"⟩).1 :=
  (C5_deterministic ["2272060800  10"] ⟨some ["2272060800  10"], none⟩
    ⟨some ["2272060800  10"], some "stale"⟩ rfl rfl).1

/-- C6 (counterexample): the line made of a space, `#`, a space and `c` is
non-blank and does not begin with `#` (so under the claim's literal reading
it is a data line whose first token `#` is not a valid integer, and the run
should fail), yet the run succeeds: the code strips the line before the `#`
test and skips it. -/
theorem C6_cx_indented_comment_line :
    (" # c" : String) ≠ "" ∧
    " # c".data.head? ≠ some '#' ∧
    pySplit (pyStrip " # c".data) = [['#'], ['c']] ∧
    pyInt ['#'] = none ∧
    (run_generator ⟨some [" # c"], none⟩).1 = .ok () := by
  exact ⟨by decide, by decide, rfl, rfl, rfl⟩

/-- C6 (amended): the run fails iff the input file does not exist or some
line that is non-blank after stripping, and whose first non-whitespace
character is not `#`, does not start with two valid integer tokens; the
error is the file-access error in the first case and a parse/conversion
error raised inside `parse_leap_seconds` (`ValueError` from `int()`, or
`IndexError` from `parts[1]` when the line has one token) in the second.
The run is one pass returning a single `Except` value, so every failure is
terminal: there is no retry or recovery. -/
theorem C6_failure_iff (fs : FileSystem) :
    ((run_generator fs).1 ≠ .ok () ↔
      fs.input = none ∨
      ∃ lines, fs.input = some lines ∧ ∃ l ∈ lines, bad_line l.data = true) ∧
    (∀ e, (run_generator fs).1 = .error e →
      (fs.input = none → e = .fileNotFound) ∧
      (∀ lines, fs.input = some lines →
        e = .valueError ∨ e = .indexError)) := by
  rcases hin : fs.input with _ | lines
  · have hrun : (run_generator fs).1 = .error .fileNotFound := by
      simp only [run_generator, hin]
    constructor
    · rw [hrun]
      constructor
      · intro _
        exact Or.inl rfl
      · intro _ h
        exact Except.noConfusion h
    · intro e he
      rw [hrun] at he
      injection he with h
      subst h
      constructor
      · intro _
        rfl
      · intro lines hl
        exact Option.noConfusion hl
  · by_cases hbad : ∃ l ∈ lines, bad_line l.data = true
    · rcases parse_err_of_bad lines hbad with ⟨e, he, hkind⟩
      have hrun : (run_generator fs).1 = .error e := by
        simp only [run_generator, hin, he]
      constructor
      · rw [hrun]
        constructor
        · intro _
          exact Or.inr ⟨lines, rfl, hbad⟩
        · intro _ h
          exact Except.noConfusion h
      · intro e' he'
        rw [hrun] at he'
        injection he' with h
        subst h
        constructor
        · intro hnone
          exact Option.noConfusion hnone
        · intro _ _
          exact hkind
    · have hgood : ∀ l ∈ lines, bad_line l.data = false := by
        intro l hl
        rcases hb : bad_line l.data with _ | _
        · rfl
        · exact absurd ⟨l, hl, hb⟩ hbad
      have hok := parse_ok_of_good lines hgood
      have hrun : (run_generator fs).1 = .ok () := by
        simp only [run_generator, hin, hok]
      constructor
      · rw [hrun]
        constructor
        · intro h
          exact absurd rfl h
        · rintro (h | ⟨lines', heq, x, hx, hbad'⟩)
          · exact Option.noConfusion h
          · injection heq with h2
            subst h2
            exact absurd ⟨x, hx, hbad'⟩ hbad
      · intro e he
        rw [hrun] at he
        exact Except.noConfusion he

/-- C6 (witness): the amended claim applied to a missing input file. -/
theorem C6_failure_iff_witness :
    (run_generator ⟨none, none⟩).1 ≠ Except.ok () :=
  (C6_failure_iff ⟨none, none⟩).1.mpr (Or.inl rfl)

/-- C7 (counterexample): the line `"18446744073709551616 10"` parses to a
record whose computed value `18446744073709551616 - 2208988800 +
0x4000000000000000 = 23058430089927950720` is not below `2 ^ 64`, so the
emitted value is not an unsigned 64-bit integer (the script applies no
masking; Python integers are unbounded). -/
theorem C7_cx_large_timestamp :
    parse_leap_seconds ["18446744073709551616 10"] =
      .ok [(18446744073709551616, 10)] ∧
    ¬ (tai64_of 18446744073709551616 < 2 ^ 64) := by
  exact ⟨rfl, by decide⟩

/-- C7 (amended): for every parsed record whose `ntp_timestamp` lies in
`[0, 2208988800 + 3 * 2 ^ 62)` — which covers every real leap-second table
entry — the value `ntp_timestamp - 2208988800 + 0x4000000000000000` lies in
`[0, 2 ^ 64)`, i.e. is an unsigned 64-bit integer as the downstream
representation requires. -/
theorem C7_value_range (p : Int × Int) (h0 : 0 ≤ p.1)
    (h1 : p.1 < 2208988800 + 3 * 2 ^ 62) :
    0 ≤ tai64_of p.1 ∧ tai64_of p.1 < 2 ^ 64 := by
  rw [tai64_of, NTP_TO_UNIX, TAI64_BASE]
  norm_num at h1 ⊢
  omega

/-- C7 (witness): the amended claim applied to the record
`(2272060800, 10)`. -/
theorem C7_value_range_witness :
    (0 : Int) ≤ ((2272060800 : Int), (10 : Int)).1 ∧
    ((2272060800 : Int), (10 : Int)).1 < 2208988800 + 3 * 2 ^ 62 ∧
    (0 ≤ tai64_of ((2272060800 : Int), (10 : Int)).1 ∧
      tai64_of ((2272060800 : Int), (10 : Int)).1 < 2 ^ 64) :=
  ⟨by decide, by decide,
    C7_value_range ((2272060800 : Int), (10 : Int)) (by decide) (by decide)⟩

/-- C8: an input that parses to zero records produces exactly the header
text with `LEAPSECS_INIT_COUNT 0` and an array literal containing no
initializers, only the remaining-entries comment. -/
theorem C8_zero_records (lines : List String) (fs : FileSystem)
    (hp : parse_leap_seconds lines = .ok []) (hin : fs.input = some lines) :
    (run_generator fs).2.output = some (String.mk (generate_output [])) ∧
    emit_entries [] = [] ∧
    String.mk (generate_output []) =
      "/* Auto-generated from leap-seconds.list */\n#ifndef TAI_LEAPSECS_DAT_H\n#define TAI_LEAPSECS_DAT_H\n\n#define LEAPSECS_MAX 256\n#define LEAPSECS_INIT_COUNT 0\n\nstatic struct tai leapsecs_table[LEAPSECS_MAX] = \x7b\n  /* Remaining entries initialized to zero */\n\x7d;\n\n#endif\n" := by
  refine ⟨?_, rfl, rfl⟩
  simp only [run_generator, hin, hp]

/-- C8 (witness): the claim applied to an input with one comment line and
one whitespace-only line. -/
theorem C8_zero_records_witness :
    (run_generator ⟨some ["# comment", "   "], none⟩).2.output =
      some (String.mk (generate_output [])) ∧
    emit_entries [] = [] ∧
    String.mk (generate_output []) =
      "/* Auto-generated from leap-seconds.list */\n#ifndef TAI_LEAPSECS_DAT_H\n#define TAI_LEAPSECS_DAT_H\n\n#define LEAPSECS_MAX 256\n#define LEAPSECS_INIT_COUNT 0\n\nstatic struct tai leapsecs_table[LEAPSECS_MAX] = \x7b\n  /* Remaining entries initialized to zero */\n\x7d;\n\n#endif\n" :=
  C8_zero_records ["# comment", "   "] ⟨some ["# comment", "   "], none⟩ rfl rfl

/-- Parsing a file of `n` copies of the line `"0 0"` yields `n` records. -/
theorem parse_replicate_zero : ∀ n,
    parse_leap_seconds (List.replicate n "0 0") =
      .ok (List.replicate n ((0 : Int), (0 : Int))) := by
  intro n
  induction n with
  | zero => rfl
  | succ n ih =>
    rw [List.replicate_succ, List.replicate_succ, parse_leap_seconds]
    have hpl : parseLine "0 0".data = .ok (some ((0 : Int), (0 : Int))) := rfl
    rw [hpl, ih]

/-- C9: with more than 256 parsed records the generator still succeeds (the
emission stage is total — there is no capacity check anywhere): it writes an
output whose brace count shows one initializer per record, so the
initializer count exceeds the declared capacity `LEAPSECS_MAX = 256`. -/
theorem C9_no_capacity_check (fs : FileSystem) (lines : List String)
    (records : List (Int × Int)) (hin : fs.input = some lines)
    (hp : parse_leap_seconds lines = .ok records)
    (hlen : 256 < records.length) :
    (run_generator fs).1 = .ok () ∧
    (run_generator fs).2.output = some (String.mk (generate_output records)) ∧
    (generate_output records).count lbrace = records.length + 1 ∧
    256 + 1 < records.length + 1 := by
  refine ⟨?_, ?_, count_generate_lbrace records, by omega⟩ <;>
    simp only [run_generator, hin, hp]

/-- C9 (witness): the claim applied to an input of 257 data lines. -/
theorem C9_no_capacity_check_witness :
    (run_generator ⟨some (List.replicate 257 "0 0"), none⟩).1 = .ok () ∧
    (run_generator ⟨some (List.replicate 257 "0 0"), none⟩).2.output =
      some (String.mk
        (generate_output (List.replicate 257 ((0 : Int), (0 : Int))))) ∧
    (generate_output (List.replicate 257 ((0 : Int), (0 : Int)))).count lbrace =
      (List.replicate 257 ((0 : Int), (0 : Int))).length + 1 ∧
    256 + 1 < (List.replicate 257 ((0 : Int), (0 : Int))).length + 1 :=
  C9_no_capacity_check ⟨some (List.replicate 257 "0 0"), none⟩
    (List.replicate 257 "0 0") (List.replicate 257 ((0 : Int), (0 : Int)))
    rfl (parse_replicate_zero 257) (by rw [List.length_replicate]; omega)

/-- C10: the whole input is parsed before the output file is opened, so a
failing run (missing input file or a line raising a conversion or subscript
error) leaves the filesystem — in particular the output file — exactly as
it was: never opened, truncated or written. -/
theorem C10_no_output_on_failure (fs : FileSystem)
    (h : (run_generator fs).1 ≠ .ok ()) :
    (run_generator fs).2 = fs := by
  rcases hin : fs.input with _ | lines
  · simp only [run_generator, hin]
  · rcases hp : parse_leap_seconds lines with e | records
    · simp only [run_generator, hin, hp]
    · exfalso
      apply h
      simp only [run_generator, hin, hp]

/-- C10 (witness): a run with a missing input file leaves the prior output
file content in place. -/
theorem C10_no_output_on_failure_witness :
    (run_generator ⟨none, some "stale content"⟩).2 =
      ⟨none, some "stale content"⟩ :=
  C10_no_output_on_failure ⟨none, some "stale content"⟩
    (fun h => Except.noConfusion h)
